import Mathlib

/-!
Shallow embedding of `src/base.py`, a minimal template engine
(class `CodeBuilder` and class `Template`), together with theorems checking
the natural-language specification against this code.

Conventions of the embedding:
* Python strings are Lean `String`s; character-level scanning works on
  `List Char`.
* Python exceptions are values of `PyExc`; a raised exception aborts a
  computation, modelled with `Except`.
* Mutable state threaded through `Template.__init__` (the variable sets, the
  operation stack, the output buffer and the `CodeBuilder` being filled)
  becomes an explicit `CompileSt` record passed along the token loop.
* Recursions whose Python counterpart is bounded by the input size
  (the tokenizer and `_expr_code`) take an explicit fuel argument that is
  always given as `length + 1`; sufficiency of that fuel is proved below
  (`tokenizeF_isSome`, and fuel-independence in `exprCodeF_congr`).
-/

/-- Python exception classes that the embedded code can raise or mention.
`templateSyntaxError` stands for the class name `TemplateSyntaxError` that
`Template._syntax_error` tries to raise; whether it is ever constructed
depends on that name being defined (see `mkSynErr`). -/
inductive PyExc where
  | nameError
  | assertionError
  | indexError
  | keyError
  | attributeError
  | templateSyntaxError
  | recursionError
deriving DecidableEq

/-- Python's builtin exception hierarchy: `KeyError` and `IndexError` are the
subclasses of `LookupError`. -/
def isLookupError : PyExc → Bool
  | PyExc.keyError => true
  | PyExc.indexError => true
  | _ => false

/-- An abnormal termination of `Template.__init__`.
`synErr msg thing exc` records a call of `Template._syntax_error(msg, thing)`
together with the exception class `exc` that the `raise` statement actually
produces; `pyErr exc` is an exception raised directly by the Python runtime
(e.g. `IndexError` from indexing an empty list, `AssertionError` from a
failed `assert`). -/
inductive Abort where
  | synErr (msg thing : String) (exc : PyExc)
  | pyErr (exc : PyExc)
deriving DecidableEq

/-- The names bound at module scope in `src/base.py`: the `import re`
statement and the two class statements. Nothing else is defined there. -/
def moduleTopLevelNames : List String := ["re", "CodeBuilder", "Template"]

/-- The relevant part of Python's builtin namespace, consulted after module
scope when resolving a bare name. It contains `SyntaxError` but of course not
`TemplateSyntaxError`. -/
def pythonBuiltinNames : List String :=
  ["str", "repr", "getattr", "callable", "exec", "print", "len", "set", "dict",
   "Exception", "SyntaxError", "NameError", "AssertionError", "IndexError",
   "KeyError", "AttributeError", "LookupError", "TypeError", "ValueError"]

/-- Whether the name `TemplateSyntaxError`, referenced by
`Template._syntax_error`, resolves in module or builtin scope. -/
def tseDefined : Bool :=
  moduleTopLevelNames.contains "TemplateSyntaxError"
    || pythonBuiltinNames.contains "TemplateSyntaxError"

/-- Models `Template._syntax_error(msg, thing)`:
`raise TemplateSyntaxError("%s: %r" % (msg, thing))`. Evaluating the name
`TemplateSyntaxError` resolves it against the module namespace and the
builtins; if the name is not bound there, the lookup itself raises
`NameError` and the intended exception is never constructed. -/
def mkSynErr (msg thing : String) : Abort :=
  if tseDefined then Abort.synErr msg thing PyExc.templateSyntaxError
  else Abort.synErr msg thing PyExc.nameError

/-- Models the `CodeBuilder` class: `self.code` is a list whose elements are
either plain strings or nested `CodeBuilder` objects (sections), and
`self.indent_level` is the current indentation cursor. -/
inductive CodeBuilder where
  | mk (indent_level : Int) (code : List (Sum String CodeBuilder))

/-- An element of `CodeBuilder.code`: a raw string or a nested builder. -/
abbrev CItem := Sum String CodeBuilder

/-- Accessor for the `indent_level` field. -/
def CodeBuilder.indent_level : CodeBuilder → Int
  | CodeBuilder.mk i _ => i

/-- Accessor for the `code` field. -/
def CodeBuilder.code : CodeBuilder → List CItem
  | CodeBuilder.mk _ c => c

/-- `" " * n` for the current indent level; Python multiplication of a string
by a non-positive integer yields the empty string, matching `Int.toNat`. -/
def indentSpaces (i : Int) : String := String.mk (List.replicate i.toNat ' ')

/-- Models `CodeBuilder.add_line`: `self.code.extend([" " * self.indent_level,
line, "\n"])` — three separate strings are appended. -/
def CodeBuilder.add_line (cb : CodeBuilder) (line : String) : CodeBuilder :=
  CodeBuilder.mk cb.indent_level
    (cb.code ++ [Sum.inl (indentSpaces cb.indent_level), Sum.inl line, Sum.inl "\n"])

/-- Models `CodeBuilder.indent`: `self.indent_level += self.INDENT_STEP`
with `INDENT_STEP = 4`. -/
def CodeBuilder.indent (cb : CodeBuilder) : CodeBuilder :=
  CodeBuilder.mk (cb.indent_level + 4) cb.code

/-- Models `CodeBuilder.dedent`: `self.indent_level -= self.INDENT_STEP`. -/
def CodeBuilder.dedent (cb : CodeBuilder) : CodeBuilder :=
  CodeBuilder.mk (cb.indent_level - 4) cb.code

/-- Models `CodeBuilder.add_section`: a fresh `CodeBuilder(self.indent_level)`
is appended to `self.code` and returned. The first component is the updated
parent, the second the new (empty) section; in Python the returned object is
aliased into the parent's list, which the pure embedding renders by
backfilling the section later with `setSub` at its recorded position. -/
def CodeBuilder.add_section (cb : CodeBuilder) : CodeBuilder × CodeBuilder :=
  (CodeBuilder.mk cb.indent_level (cb.code ++ [Sum.inr (CodeBuilder.mk cb.indent_level [])]),
   CodeBuilder.mk cb.indent_level [])

/-- Replaces the item at position `i` of the builder's list by the section
`sec`: this realises, in the pure setting, the mutation of a section object
that Python performs through the alias returned by `add_section`. -/
def setSub (cb : CodeBuilder) (i : Nat) (sec : CodeBuilder) : CodeBuilder :=
  CodeBuilder.mk cb.indent_level (cb.code.set i (Sum.inr sec))

mutual

/-- Models `CodeBuilder.__str__`:
`"".join(str(c) for c in self.code)`, recursing into sections. -/
def cbToString : CodeBuilder → String
  | CodeBuilder.mk _ code => itemsToString code

/-- String of a list of `CodeBuilder.code` items, in order. -/
def itemsToString : List CItem → String
  | [] => ""
  | Sum.inl s :: rest => s ++ itemsToString rest
  | Sum.inr cb :: rest => cbToString cb ++ itemsToString rest

end

/-- Models `CodeBuilder.get_globals` up to the point it can reach: the method
first runs `assert self.indent_level == 0`; only if that assertion passes
would it `exec` the serialized source. The success value is the serialized
source text handed to `exec` (the `exec` itself is provably unreachable for
every template — see the theorem for claim C1 — because `indent_level` is
always `-4` here). -/
def get_globals (cb : CodeBuilder) : Except Abort String :=
  if cb.indent_level = 0 then Except.ok (cbToString cb)
  else Except.error (Abort.pyErr PyExc.assertionError)

/-- A Python value as seen by the render runtime: an object with named
attributes, key/index entries (`__getitem__`), and an optional zero-argument
call behaviour — `call = some r` means `callable(v)` is true and `v()`
returns `r`. -/
inductive PyVal where
  | mk (attrs : List (String × PyVal)) (items : List (String × PyVal))
       (call : Option PyVal)

/-- Accessor for the attribute table. -/
def PyVal.attrs : PyVal → List (String × PyVal)
  | PyVal.mk a _ _ => a

/-- Accessor for the item (key/index) table. -/
def PyVal.items : PyVal → List (String × PyVal)
  | PyVal.mk _ i _ => i

/-- Accessor for the call behaviour. -/
def PyVal.call : PyVal → Option PyVal
  | PyVal.mk _ _ c => c

/-- Models `getattr(value, dot)` succeeding (attribute present) or raising
`AttributeError` (absent, `none`). -/
def getattrOpt (value : PyVal) (dot : String) : Option PyVal :=
  List.lookup dot value.attrs

/-- Models `value[dot]` succeeding (key present) or raising a lookup failure
(absent, `none`). -/
def getitemOpt (value : PyVal) (dot : String) : Option PyVal :=
  List.lookup dot value.items

/-- Models `if callable(value): value = value()` in `Template._do_dots`. -/
def autoCall (value : PyVal) : PyVal :=
  match value.call with
  | some r => r
  | none => value

/-- Models `Template._do_dots(value, *dots)`: for each name, try attribute
access; on `AttributeError` fall back to `value[dot]`; a key failure
propagates as `KeyError`; an invocable result is invoked before continuing. -/
def do_dots (value : PyVal) (dots : List String) : Except PyExc PyVal :=
  match dots with
  | [] => Except.ok value
  | d :: rest =>
    match getattrOpt value d with
    | some v1 => do_dots (autoCall v1) rest
    | none =>
      match getitemOpt value d with
      | some v1 => do_dots (autoCall v1) rest
      | none => Except.error PyExc.keyError

/-- Opaque stand-in for the bound method `str.upper` passed as a context
value in the demo scenario; `Template.__init__` never inspects context
values, so any value serves. -/
def strUpperVal : PyVal := PyVal.mk [] [] none

/-- First character class of the pattern `[_a-zA-Z][_a-zA-Z0-9]*$`. -/
def isIdentFirst (c : Char) : Bool := c.isAlpha || c = '_'

/-- Continuation character class of the same pattern. -/
def isIdentRest (c : Char) : Bool := c.isAlpha || c.isDigit || c = '_'

/-- The pattern body anchored at the start: one `[_a-zA-Z]` then
`[_a-zA-Z0-9]*` covering the whole list. -/
def identCore : List Char → Bool
  | [] => false
  | c :: rest => isIdentFirst c && rest.all isIdentRest

/-- Models `re.match(r"[_a-zA-Z][_a-zA-Z0-9]*$", name)` being truthy:
`re.match` anchors at the start, and `$` matches at the end of the string or
just before a final newline. -/
def matchIdent (name : String) : Bool :=
  identCore name.toList ||
    (match name.toList.getLast? with
     | some c => c = '\n' && identCore name.toList.dropLast
     | none => false)

/-- Models `Template._variable(name, vars_set)`: reject names failing the
identifier pattern via `_syntax_error("Invalid name", name)`, otherwise
`vars_set.add(name)`. Sets are association-free lists without duplicates. -/
def trackVar (name : String) (vars_set : List String) : Except Abort (List String) :=
  if matchIdent name then
    Except.ok (if name ∈ vars_set then vars_set else vars_set ++ [name])
  else Except.error (mkSynErr "Invalid name" name)

/-- Python whitespace for `str.strip()` / `str.split()`. -/
def pyIsSpace (c : Char) : Bool :=
  c = ' ' || c = '\t' || c = '\n' || c = '\r' || c = '\x0b' || c = '\x0c'

/-- Models `str.strip()`: drop whitespace from both ends. -/
def pyStrip (l : List Char) : List Char :=
  ((l.dropWhile pyIsSpace).reverse.dropWhile pyIsSpace).reverse

/-- Worker for `pySplitWs`, accumulating the current word reversed. -/
def pySplitWsAux : List Char → List Char → List String
  | [], [] => []
  | [], acc => [String.mk acc.reverse]
  | c :: rest, acc =>
    if pyIsSpace c then
      match acc with
      | [] => pySplitWsAux rest []
      | _ => String.mk acc.reverse :: pySplitWsAux rest []
    else pySplitWsAux rest (c :: acc)

/-- Models `str.split()` with no argument: split on whitespace runs,
discarding empty fragments. -/
def pySplitWs (l : List Char) : List String := pySplitWsAux l []

/-- Models `str.split(sep)` for a single-character separator: every
occurrence of `sep` separates two (possibly empty) fragments. -/
def splitChar (sep : Char) : List Char → List (List Char)
  | [] => [[]]
  | c :: rest =>
    match splitChar sep rest with
    | [] => [[]]
    | w :: ws => if c = sep then [] :: w :: ws else (c :: w) :: ws

/-- Hexadecimal digit for `pyRepr`'s `\xNN` escapes. -/
def hexDigit (n : Nat) : Char :=
  if n < 10 then Char.ofNat ('0'.toNat + n) else Char.ofNat ('a'.toNat + n - 10)

/-- Quote character chosen by Python `repr` for a string: single quotes,
unless the string contains a single quote and no double quote. -/
def pyReprQuote (l : List Char) : Char :=
  if l.contains '\x27' && !(l.contains '"') then '"' else '\x27'

/-- One character of Python `repr` output under quote `q` (printable ASCII
and control characters; the inputs of this development are ASCII). -/
def pyReprChar (q c : Char) : String :=
  if c = '\\' then "\\\\"
  else if c = q then String.mk ['\\', q]
  else if c = '\n' then "\\n"
  else if c = '\r' then "\\r"
  else if c = '\t' then "\\t"
  else if c.toNat < 32 || c.toNat = 127 then
    "\\x" ++ String.mk [hexDigit (c.toNat / 16 % 16), hexDigit (c.toNat % 16)]
  else String.mk [c]

/-- Models the builtin `repr` on strings (`"%r"` formatting). -/
def pyRepr (s : String) : String :=
  let q := pyReprQuote s.toList
  String.mk [q] ++ String.join (s.toList.map (pyReprChar q)) ++ String.mk [q]

/-- Splits `cs` at the first occurrence of the (non-empty) sequence `closer`:
returns the part before it and the part after it, or `none` when `closer`
does not occur. This is the non-greedy `.*?` search of the token pattern. -/
def splitAtCloser (closer : List Char) : List Char → Option (List Char × List Char)
  | [] => none
  | c :: rest =>
    if closer.isPrefixOf (c :: rest) then some ([], (c :: rest).drop closer.length)
    else
      match splitAtCloser closer rest with
      | some (ins, aft) => some (c :: ins, aft)
      | none => none

/-- Tries the three delimiter alternatives of
`re.split(r"(?s)({{.*?}}|{%.*?%}|{#.*?#})", text)` at the current position:
if one of the two-character openers is present and its closer occurs later,
returns the whole matched token and the remaining input. `(?s)` lets the
non-greedy interior span newlines, which character scanning gives for free. -/
def openerAt (cs : List Char) : Option (List Char × List Char) :=
  match cs with
  | '\x7b' :: '\x7b' :: rest =>
    (splitAtCloser ['\x7d', '\x7d'] rest).map
      (fun p => ('\x7b' :: '\x7b' :: (p.1 ++ ['\x7d', '\x7d']), p.2))
  | '\x7b' :: '%' :: rest =>
    (splitAtCloser ['%', '\x7d'] rest).map
      (fun p => ('\x7b' :: '%' :: (p.1 ++ ['%', '\x7d']), p.2))
  | '\x7b' :: '#' :: rest =>
    (splitAtCloser ['#', '\x7d'] rest).map
      (fun p => ('\x7b' :: '#' :: (p.1 ++ ['#', '\x7d']), p.2))
  | _ => none

/-- Fuel-indexed worker for the tokenizer: scans left to right, emitting the
pending literal fragment and the matched token at every delimiter match
(`re.split` with a capture group keeps the delimiters and the — possibly
empty — fragments between them). A position where no alternative matches
contributes its character to the current literal. `none` means the fuel ran
out, which `tokenizeF_isSome` below rules out for the fuel used. -/
def tokenizeF : Nat → List Char → List Char → Option (List String)
  | 0, _, _ => none
  | _ + 1, [], lit => some [String.mk lit.reverse]
  | fuel + 1, c :: rest, lit =>
    match openerAt (c :: rest) with
    | some (tok, aft) =>
      (tokenizeF fuel aft []).map
        (fun ts => String.mk lit.reverse :: String.mk tok :: ts)
    | none => tokenizeF fuel rest (c :: lit)

/-- Models the token split of `Template.__init__`:
`re.split(r"(?s)({{.*?}}|{%.*?%}|{#.*?#})", text)`. -/
def tokenize (text : List Char) : List String :=
  (tokenizeF (text.length + 1) text []).getD []

/-- Fuel-indexed model of `Template._expr_code(expr)`, threading the mutable
set `self.all_vars` explicitly. Pipes are split first; the first fragment is
compiled recursively and the remaining fragments become nested unary filter
calls, left to right. Otherwise dots are split; the first fragment is
compiled recursively and the rest become `repr`'d arguments of a `do_dots`
call. Otherwise the expression is validated and compiled as a bare context
variable `c_name`. The fuel decreases at each recursive call; fuel 0 is
unreachable for the fuel chosen by `expr_code` (`exprCodeF_congr` makes the
result fuel-independent), mirroring that the Python recursion terminates. -/
def exprCodeF : Nat → List Char → List String → Except Abort (String × List String)
  | 0, _, _ => Except.error (Abort.pyErr PyExc.recursionError)
  | fuel + 1, expr, all_vars =>
    if '|' ∈ expr then
      match splitChar '|' expr with
      | [] => Except.error (Abort.pyErr PyExc.indexError)
      | p0 :: pipes =>
        match exprCodeF fuel p0 all_vars with
        | Except.error a => Except.error a
        | Except.ok (code0, av0) =>
          pipes.foldlM
            (fun acc func =>
              match trackVar (String.mk func) acc.2 with
              | Except.error a => Except.error a
              | Except.ok av =>
                Except.ok ("c_" ++ String.mk func ++ "(" ++ acc.1 ++ ")", av))
            (code0, av0)
    else if '.' ∈ expr then
      match splitChar '.' expr with
      | [] => Except.error (Abort.pyErr PyExc.indexError)
      | d0 :: dots =>
        match exprCodeF fuel d0 all_vars with
        | Except.error a => Except.error a
        | Except.ok (code0, av0) =>
          Except.ok
            ("do_dots(" ++ code0 ++ ", "
               ++ String.intercalate ", " (dots.map (fun d => pyRepr (String.mk d)))
               ++ ")",
             av0)
    else
      match trackVar (String.mk expr) all_vars with
      | Except.error a => Except.error a
      | Except.ok av => Except.ok ("c_" ++ String.mk expr, av)

/-- Models `Template._expr_code(expr)` on an expression given as characters,
with `all_vars` threaded in and out. -/
def expr_code (expr : List Char) (all_vars : List String) :
    Except Abort (String × List String) :=
  exprCodeF (expr.length + 1) expr all_vars

/-- The compile-time state mutated by the token loop of `Template.__init__`:
the two variable sets, the `CodeBuilder` being filled, the buffered output
fragments, and the stack of open operations. -/
structure CompileSt where
  all_vars : List String
  loop_vars : List String
  code : CodeBuilder
  buffered : List String
  ops_stack : List String

/-- Models the nested function `flush_output()`: one buffered fragment turns
into an `append_result` line, several into one `extend_result` line, none
into nothing; the buffer is cleared. -/
def flush (st : CompileSt) : CompileSt :=
  match st.buffered with
  | [] => st
  | [b] =>
    { st with
      code := st.code.add_line ("append_result(" ++ b ++ ")")
      buffered := [] }
  | bs =>
    { st with
      code := st.code.add_line ("extend_result([" ++ String.intercalate ", " bs ++ "])")
      buffered := [] }

/-- Models `token[2:-2].strip().split()` for a control tag. -/
def tagWords (token : String) : List String :=
  pySplitWs (pyStrip ((token.toList.drop 2).dropLast.dropLast))

/-- Models `words[0].startswith('end')` by character comparison. -/
def wordStartsWithEnd (w : String) : Bool :=
  ['e', 'n', 'd'].isPrefixOf w.toList

/-- Models `words[0][3:]`, the tag kind after the `end` prefix. -/
def wordDrop3 (w : String) : String := String.mk (w.toList.drop 3)

/-- One iteration of the token loop of `Template.__init__`, dispatching on
the first two characters of the token exactly as the chain of
`token.startswith(...)` tests does. Inside a `{%...%}` tag, `words[0]` on an
empty word list raises `IndexError`; the `if`/`for`/`end` arms follow the
source line by line (`_syntax_error` raises, so each error ends the loop).
The `print(code)` after a tag is an I/O side effect with no bearing on the
state and is not modelled. -/
def processToken (st : CompileSt) (token : String) : Except Abort CompileSt :=
  match token.toList with
  | '\x7b' :: '#' :: _ => Except.ok st
  | '\x7b' :: '\x7b' :: _ =>
    match expr_code (pyStrip ((token.toList.drop 2).dropLast.dropLast)) st.all_vars with
    | Except.error a => Except.error a
    | Except.ok (expr, av) =>
      Except.ok
        { st with
          all_vars := av
          buffered := st.buffered ++ ["to_str(" ++ expr ++ ")"] }
  | '\x7b' :: '%' :: _ =>
    -- `flush_output()` runs first; `flush st` below is that flushed state
    match tagWords token with
    | [] => Except.error (Abort.pyErr PyExc.indexError)
    | "if" :: rest =>
      match rest with
      | [cond] =>
        match expr_code cond.toList (flush st).all_vars with
        | Except.error a => Except.error a
        | Except.ok (expr, av) =>
          Except.ok
            { flush st with
              all_vars := av
              ops_stack := (flush st).ops_stack ++ ["if"]
              code := ((flush st).code.add_line ("if " ++ expr ++ ":")).indent }
      | _ => Except.error (mkSynErr "Invalid If Statement" token)
    | "for" :: rest =>
      match rest with
      | [v, inKw, seq] =>
        if inKw = "in" then
          match trackVar v (flush st).loop_vars with
          | Except.error a => Except.error a
          | Except.ok lv =>
            match expr_code seq.toList (flush st).all_vars with
            | Except.error a => Except.error a
            | Except.ok (expr, av) =>
              Except.ok
                { flush st with
                  loop_vars := lv
                  all_vars := av
                  ops_stack := (flush st).ops_stack ++ ["for"]
                  code :=
                    ((flush st).code.add_line
                      ("for c_" ++ v ++ " in " ++ expr ++ ":")).indent }
        else Except.error (mkSynErr "Invalid For Loop" token)
      | _ => Except.error (mkSynErr "Invalid For Loop" token)
    | w :: rest =>
      if wordStartsWithEnd w then
        match rest with
        | [] =>
          match (flush st).ops_stack.getLast? with
          | none => Except.error (mkSynErr "Unmatched end" token)
          | some start_what =>
            if start_what = wordDrop3 w then
              Except.ok
                { flush st with
                  ops_stack := (flush st).ops_stack.dropLast
                  code := (flush st).code.dedent }
            else Except.error (mkSynErr "Mismatched end" (wordDrop3 w))
        | _ => Except.error (mkSynErr "Invalid end" token)
      else Except.error (mkSynErr "Invalid tag" w)
  | [] => Except.ok st
  | _ => Except.ok { st with buffered := st.buffered ++ [pyRepr token] }

/-- The compile pass of `Template.__init__`, from the prologue through the
final `code.dedent()`, stopping just before `code.get_globals()`:
build the `def render_function` line, insert the `vars_code` section (the
statement `code.indent` on the next source line is a bare attribute access,
not a call, and therefore changes nothing), emit the prologue lines, fold
the token loop over the tokens, reject a non-empty operation stack, flush,
backfill the section with one context-lookup line per variable in
`all_vars - loop_vars`, emit the `return` line and dedent. Python iterates
the set difference in unspecified hash order; the embedding uses the
first-registration order, which no observable result depends on. -/
def compilePass (text : String) : Except Abort CompileSt :=
  let code0 := CodeBuilder.mk 0 []
  let code1 := code0.add_line "def render_function(context, do_dots):"
  -- source line 53 reads `code.indent` without parentheses: no effect
  let secIdx := code1.code.length
  let code2 := (code1.add_section).1
  let code3 :=
    ((((code2.add_line "result = []").add_line
        "append_result = result.append").add_line
        "extend_result = result.extend").add_line
        "to_str = str")
  let st0 : CompileSt :=
    { all_vars := [], loop_vars := [], code := code3, buffered := [], ops_stack := [] }
  match (tokenize text.toList).foldlM processToken st0 with
  | Except.error a => Except.error a
  | Except.ok st =>
    match st.ops_stack.getLast? with
    | some last => Except.error (mkSynErr "Unmatched tag" last)
    | none =>
      let st1 := flush st
      let varsSec :=
        (st1.all_vars.filter (fun v => v ∉ st1.loop_vars)).foldl
          (fun cb v => cb.add_line ("c_" ++ v ++ " = context[" ++ pyRepr v ++ "]"))
          (CodeBuilder.mk 0 [])
      let code4 := setSub st1.code secIdx varsSec
      let code5 := (code4.add_line "return \x27\x27.join(result)").dedent
      Except.ok { st1 with code := code5 }

/-- A constructed `Template` instance: the merged base context, the two
variable sets, and the source text whose `exec` would have produced
`render_function` (standing in for the bound routine). -/
structure TemplateObj where
  context : List (String × PyVal)
  all_vars : List String
  loop_vars : List String
  render_source : String

/-- Models `dict` assignment `d[k] = v` within `dict.update`. -/
def setKey (d : List (String × PyVal)) (k : String) (v : PyVal) :
    List (String × PyVal) :=
  if d.any (fun kv => kv.1 = k) then
    d.map (fun kv => if kv.1 = k then (k, v) else kv)
  else d ++ [(k, v)]

/-- Models `self.context.update(context)`: later keys override earlier. -/
def updateCtx (d u : List (String × PyVal)) : List (String × PyVal) :=
  u.foldl (fun acc kv => setKey acc kv.1 kv.2) d

/-- Models `Template(text, *contexts)`: merge the context mappings, run the
compile pass, then `code.get_globals()['render_function']`. -/
def templateInit (text : String) (contexts : List (List (String × PyVal))) :
    Except Abort TemplateObj :=
  let ctx := contexts.foldl updateCtx []
  match compilePass text with
  | Except.error a => Except.error a
  | Except.ok st =>
    match get_globals st.code with
    | Except.error a => Except.error a
    | Except.ok src =>
      Except.ok
        { context := ctx, all_vars := st.all_vars, loop_vars := st.loop_vars,
          render_source := src }

/-- The compile-pass state a successful pass produces, with a harmless
default on the error branches (used only to name the successful state in
closed statements). -/
def stOf (e : Except Abort CompileSt) : CompileSt :=
  match e with
  | Except.ok st => st
  | Except.error _ =>
    { all_vars := [], loop_vars := [], code := CodeBuilder.mk 0 [],
      buffered := [], ops_stack := [] }

/-- `all_vars` as registered by a compile pass over `text` (empty list when
the pass aborts). -/
def compiledAllVars (text : String) : List String :=
  match compilePass text with
  | Except.ok st => st.all_vars
  | Except.error _ => []

/-- `loop_vars` as registered by a compile pass over `text` (empty list when
the pass aborts). -/
def compiledLoopVars (text : String) : List String :=
  match compilePass text with
  | Except.ok st => st.loop_vars
  | Except.error _ => []

/-- The property that an abort produced by a `_syntax_error` call carries
`NameError` (trivially true of runtime aborts, which are not `synErr`). -/
def SynIsName (a : Abort) : Prop :=
  ∀ m t e, a = Abort.synErr m t e → e = PyExc.nameError

/-- An empty compile-time state, used to exercise single token steps. -/
def emptyCompileSt : CompileSt :=
  { all_vars := [], loop_vars := [], code := CodeBuilder.mk 0 [],
    buffered := [], ops_stack := [] }

theorem except_ok_bind {e a b : Type} (x : a) (f : a → Except e b) :
    (Except.ok x >>= f) = f x := rfl

theorem except_pure_eq {e a : Type} (x : a) : (pure x : Except e a) = Except.ok x := rfl

theorem mkSynErr_eq (m t : String) :
    mkSynErr m t = Abort.synErr m t PyExc.nameError := rfl

theorem trackVar_error (n : String) (s : List String) (a : Abort)
    (h : trackVar n s = Except.error a) :
    a = Abort.synErr "Invalid name" n PyExc.nameError := by
  unfold trackVar at h
  split at h
  · cases h
  · injection h with h'
    rw [← h', mkSynErr_eq]

theorem add_line_indent_level (cb : CodeBuilder) (l : String) :
    (cb.add_line l).indent_level = cb.indent_level := rfl

theorem indent_indent_level (cb : CodeBuilder) :
    cb.indent.indent_level = cb.indent_level + 4 := rfl

theorem dedent_indent_level (cb : CodeBuilder) :
    cb.dedent.indent_level = cb.indent_level - 4 := rfl

theorem setSub_indent_level (cb : CodeBuilder) (i : Nat) (sec : CodeBuilder) :
    (setSub cb i sec).indent_level = cb.indent_level := rfl

theorem flush_indent (st : CompileSt) :
    (flush st).code.indent_level = st.code.indent_level := by
  unfold flush; split <;> rfl

theorem flush_ops (st : CompileSt) : (flush st).ops_stack = st.ops_stack := by
  unfold flush; split <;> rfl

theorem flush_all_vars (st : CompileSt) : (flush st).all_vars = st.all_vars := by
  unfold flush; split <;> rfl

theorem flush_loop_vars (st : CompileSt) : (flush st).loop_vars = st.loop_vars := by
  unfold flush; split <;> rfl

theorem processToken_inv (st : CompileSt) (tok : String) (st' : CompileSt)
    (h : processToken st tok = Except.ok st')
    (hI : st.code.indent_level = 4 * st.ops_stack.length) :
    st'.code.indent_level = 4 * st'.ops_stack.length := by
  unfold processToken at h
  split at h
  · injection h with h'; rw [← h']; exact hI
  · split at h
    · cases h
    · injection h with h'; rw [← h']; exact hI
  · split at h
    · cases h
    · split at h
      · split at h
        · cases h
        · injection h with h'
          rw [← h']
          simp only [indent_indent_level, add_line_indent_level, flush_indent,
            flush_ops, List.length_append, List.length_cons, List.length_nil]
          rw [hI]
          push_cast
          omega
      · cases h
    · split at h
      · split at h
        · split at h
          · cases h
          · split at h
            · cases h
            · injection h with h'
              rw [← h']
              simp only [indent_indent_level, add_line_indent_level, flush_indent,
                flush_ops, List.length_append, List.length_cons, List.length_nil]
              rw [hI]
              push_cast
              omega
        · cases h
      · cases h
    · split at h
      · split at h
        · split at h
          · cases h
          · split at h
            · injection h with h'
              rw [← h']
              rename_i heqLast _
              rw [flush_ops] at heqLast
              have hne : st.ops_stack ≠ [] := by
                intro hnil
                rw [hnil] at heqLast
                cases heqLast
              simp only [dedent_indent_level, flush_indent, flush_ops,
                List.length_dropLast]
              rw [hI]
              cases hst : st.ops_stack with
              | nil => exact absurd hst hne
              | cons a as =>
                simp only [List.length_cons]
                push_cast
                omega
            · cases h
        · cases h
      · cases h
  · injection h with h'; rw [← h']; exact hI
  · injection h with h'; rw [← h']; exact hI

theorem foldlM_except_ok_inv {σ α : Type} (P : σ → Prop) (f : σ → α → Except Abort σ)
    (hf : ∀ s x s', f s x = Except.ok s' → P s → P s') :
    ∀ (l : List α) (s s' : σ), List.foldlM f s l = Except.ok s' → P s → P s' := by
  intro l
  induction l with
  | nil =>
    intro s s' h hP
    simp only [List.foldlM_nil] at h
    injection h with h'
    rwa [← h']
  | cons x xs ih =>
    intro s s' h hP
    rw [List.foldlM_cons] at h
    cases hfx : f s x with
    | error a => rw [hfx] at h; cases h
    | ok s1 =>
      rw [hfx] at h
      exact ih s1 s' h (hf s x s1 hfx hP)

theorem foldlM_except_err {σ α : Type} (Q : Abort → Prop) (f : σ → α → Except Abort σ)
    (hf : ∀ s x a, f s x = Except.error a → Q a) :
    ∀ (l : List α) (s a), List.foldlM f s l = Except.error a → Q a := by
  intro l
  induction l with
  | nil => intro s a h; simp only [List.foldlM_nil] at h; cases h
  | cons x xs ih =>
    intro s a h
    rw [List.foldlM_cons] at h
    cases hfx : f s x with
    | error a' =>
      rw [hfx] at h
      have : (Except.error a' : Except Abort σ) = Except.error a := h
      injection this with h'
      rw [← h']
      exact hf s x a' hfx
    | ok s1 =>
      rw [hfx] at h
      exact ih s1 a h

theorem getLast?_none {α : Type} (l : List α) (h : l.getLast? = none) : l = [] := by
  cases l with
  | nil => rfl
  | cons a as => simp [List.getLast?] at h

theorem compilePass_ok_indent (text : String) (st : CompileSt)
    (h : compilePass text = Except.ok st) : st.code.indent_level = -4 := by
  simp only [compilePass] at h
  split at h
  · cases h
  · rename_i stMid hfold
    split at h
    · cases h
    · rename_i heqLast
      injection h with h'
      have hInv : stMid.code.indent_level = 4 * stMid.ops_stack.length := by
        apply foldlM_except_ok_inv
          (fun s => s.code.indent_level = 4 * (s.ops_stack.length : Int))
          processToken processToken_inv _ _ _ hfold
        decide
      have hnil : stMid.ops_stack = [] := getLast?_none _ heqLast
      rw [← h']
      simp only [dedent_indent_level, add_line_indent_level, setSub_indent_level,
        flush_indent]
      rw [hInv, hnil]
      simp

theorem splitAtCloser_len (closer : List Char) :
    ∀ (cs ins aft : List Char), splitAtCloser closer cs = some (ins, aft) →
      cs.length = ins.length + closer.length + aft.length := by
  intro cs
  induction cs with
  | nil => intro ins aft h; simp [splitAtCloser] at h
  | cons c rest ih =>
    intro ins aft h
    simp only [splitAtCloser] at h
    split at h
    · rename_i hpre
      injection h with h'
      have h1 : ([] : List Char) = ins := congrArg Prod.fst h'
      have h2 : (c :: rest).drop closer.length = aft := congrArg Prod.snd h'
      have hle : closer.length ≤ (c :: rest).length :=
        (List.isPrefixOf_iff_prefix.mp hpre).length_le
      rw [← h1, ← h2]
      simp only [List.length_drop, List.length_nil]
      omega
    · split at h
      · rename_i ins' aft' hs
        injection h with h'
        have h1 : c :: ins' = ins := congrArg Prod.fst h'
        have h2 : aft' = aft := congrArg Prod.snd h'
        have := ih ins' aft' hs
        rw [← h1, ← h2]
        simp only [List.length_cons]
        omega
      · cases h

theorem openerAt_len (cs tok aft : List Char) (h : openerAt cs = some (tok, aft)) :
    aft.length < cs.length := by
  unfold openerAt at h
  split at h <;>
    first
    | cases h
    | · rename_i rest
        cases hs : splitAtCloser _ rest with
        | none => rw [hs] at h; cases h
        | some p =>
          rw [hs] at h
          injection h with h'
          have h2 : p.2 = aft := congrArg Prod.snd h'
          have := splitAtCloser_len _ rest p.1 p.2 (by rw [hs])
          rw [← h2]
          simp only [List.length_cons]
          omega

theorem tokenizeF_isSome :
    ∀ (fuel : Nat) (cs lit : List Char), cs.length < fuel →
      (tokenizeF fuel cs lit).isSome = true := by
  intro fuel
  induction fuel with
  | zero => intro cs lit h; omega
  | succ n ih =>
    intro cs lit h
    cases cs with
    | nil => simp [tokenizeF]
    | cons c rest =>
      simp only [tokenizeF]
      cases ho : openerAt (c :: rest) with
      | some p =>
        obtain ⟨tok, aft⟩ := p
        have hlt := openerAt_len (c :: rest) tok aft ho
        have h2 : (tokenizeF n aft []).isSome = true := by
          apply ih
          simp only [List.length_cons] at hlt h
          omega
        dsimp only
        cases ht : tokenizeF n aft [] with
        | none => rw [ht] at h2; cases h2
        | some ts => rfl
      | none =>
        apply ih
        simp only [List.length_cons] at h
        omega

theorem exprCodeF_err (fuel : Nat) :
    ∀ (expr : List Char) (av : List String) (a : Abort),
      exprCodeF fuel expr av = Except.error a → SynIsName a := by
  induction fuel with
  | zero =>
    intro expr av a h
    simp only [exprCodeF] at h
    injection h with h'
    intro m t e he
    rw [← h'] at he
    cases he
  | succ n ih =>
    intro expr av a h
    simp only [exprCodeF] at h
    split at h
    · split at h
      · injection h with h'
        intro m t e he; rw [← h'] at he; cases he
      · split at h
        · injection h with h'
          rw [← h'] at *
          rename_i ha
          exact ih _ _ _ ha
        · refine foldlM_except_err SynIsName _ ?_ _ _ _ h
          intro s x a' hfx
          split at hfx
          · injection hfx with h'
            rename_i htv
            rw [← h']
            intro m t e he
            rw [trackVar_error _ _ _ htv] at he
            injection he with h1 h2 h3
            exact h3.symm
          · cases hfx
    · split at h
      · split at h
        · injection h with h'
          intro m t e he; rw [← h'] at he; cases he
        · split at h
          · injection h with h'
            rw [← h'] at *
            rename_i ha
            exact ih _ _ _ ha
          · cases h
      · split at h
        · injection h with h'
          rename_i htv
          rw [← h']
          intro m t e he
          rw [trackVar_error _ _ _ htv] at he
          injection he with h1 h2 h3
          exact h3.symm
        · cases h

theorem processToken_err (st : CompileSt) (tok : String) (a : Abort)
    (h : processToken st tok = Except.error a) : SynIsName a := by
  unfold processToken at h
  split at h
  · cases h
  · split at h
    · injection h with h'
      rename_i hec
      rw [← h'] at *
      exact exprCodeF_err _ _ _ _ hec
    · cases h
  · split at h
    · injection h with h'
      intro m t e he; rw [← h'] at he; cases he
    · split at h
      · split at h
        · injection h with h'
          rename_i hec
          rw [← h'] at *
          exact exprCodeF_err _ _ _ _ hec
        · cases h
      · injection h with h'
        rw [← h', mkSynErr_eq]
        intro m t e he; injection he with h1 h2 h3; exact h3.symm
    · split at h
      · split at h
        · split at h
          · injection h with h'
            rename_i htv
            rw [← h']
            intro m t e he
            rw [trackVar_error _ _ _ htv] at he
            injection he with h1 h2 h3
            exact h3.symm
          · split at h
            · injection h with h'
              rename_i hec
              rw [← h'] at *
              exact exprCodeF_err _ _ _ _ hec
            · cases h
        · injection h with h'
          rw [← h', mkSynErr_eq]
          intro m t e he; injection he with h1 h2 h3; exact h3.symm
      · injection h with h'
        rw [← h', mkSynErr_eq]
        intro m t e he; injection he with h1 h2 h3; exact h3.symm
    · split at h
      · split at h
        · split at h
          · injection h with h'
            rw [← h', mkSynErr_eq]
            intro m t e he; injection he with h1 h2 h3; exact h3.symm
          · split at h
            · cases h
            · injection h with h'
              rw [← h', mkSynErr_eq]
              intro m t e he; injection he with h1 h2 h3; exact h3.symm
        · injection h with h'
          rw [← h', mkSynErr_eq]
          intro m t e he; injection he with h1 h2 h3; exact h3.symm
      · injection h with h'
        rw [← h', mkSynErr_eq]
        intro m t e he; injection he with h1 h2 h3; exact h3.symm
  · cases h
  · cases h

theorem compilePass_err (text : String) (a : Abort)
    (h : compilePass text = Except.error a) : SynIsName a := by
  simp only [compilePass] at h
  split at h
  · rename_i hfold
    injection h with h'
    rw [← h'] at *
    exact foldlM_except_err SynIsName processToken
      (fun s x a' hx => processToken_err s x a' hx) _ _ _ hfold
  · split at h
    · injection h with h'
      rw [← h', mkSynErr_eq]
      intro m t e he; injection he with h1 h2 h3; exact h3.symm
    · cases h

theorem splitChar_ne_nil (sep : Char) (l : List Char) : splitChar sep l ≠ [] := by
  cases l with
  | nil => simp [splitChar]
  | cons c rest =>
    simp only [splitChar]
    cases hs : splitChar sep rest with
    | nil => simp
    | cons w ws => by_cases hc : c = sep <;> simp [hc]

theorem splitChar_not_mem (sep : Char) (l : List Char) (h : sep ∉ l) :
    splitChar sep l = [l] := by
  induction l with
  | nil => rfl
  | cons c rest ih =>
    have hc : c ≠ sep := fun he => h (he ▸ List.mem_cons_self c rest)
    have hr : sep ∉ rest := fun hm => h (List.mem_cons_of_mem c hm)
    simp only [splitChar, ih hr]
    simp [hc]

theorem splitChar_append (sep : Char) (v rest : List Char) (h : sep ∉ v) :
    splitChar sep (v ++ (sep :: rest)) = v :: splitChar sep rest := by
  induction v with
  | nil =>
    simp only [List.nil_append, splitChar]
    cases hs : splitChar sep rest with
    | nil => exact absurd hs (splitChar_ne_nil sep rest)
    | cons w ws => simp
  | cons c v' ih =>
    have hc : c ≠ sep := fun he => h (he ▸ List.mem_cons_self c v')
    have hv : sep ∉ v' := fun hm => h (List.mem_cons_of_mem c hm)
    simp only [List.cons_append, splitChar, List.append_eq]
    rw [ih hv]
    simp [hc]

theorem splitChar_head_lt (sep : Char) :
    ∀ (l : List Char), sep ∈ l →
      ∀ w ws, splitChar sep l = w :: ws → w.length < l.length := by
  intro l
  induction l with
  | nil => intro hmem; cases hmem
  | cons c rest ih =>
    intro hmem w ws hsp
    simp only [splitChar] at hsp
    cases hs : splitChar sep rest with
    | nil => exact absurd hs (splitChar_ne_nil sep rest)
    | cons w' ws' =>
      rw [hs] at hsp
      by_cases hc : c = sep
      · simp only [hc, if_pos rfl] at hsp
        obtain ⟨h1, h2⟩ := List.cons.injEq _ _ _ _ ▸ hsp
        rw [← h1]
        simp
      · simp only [if_neg hc] at hsp
        obtain ⟨h1, h2⟩ := List.cons.injEq _ _ _ _ ▸ hsp
        have hmr : sep ∈ rest := by
          cases hmem with
          | head => exact absurd rfl hc
          | tail _ hm => exact hm
        have := ih hmr w' ws' hs
        rw [← h1]
        simp only [List.length_cons]
        omega

theorem exprCodeF_congr :
    ∀ (f1 f2 : Nat) (expr : List Char) (av : List String),
      expr.length < f1 → expr.length < f2 →
      exprCodeF f1 expr av = exprCodeF f2 expr av := by
  intro f1
  induction f1 with
  | zero => intro f2 expr av h1; omega
  | succ n ih =>
    intro f2 expr av h1 h2
    cases f2 with
    | zero => omega
    | succ m =>
      simp only [exprCodeF]
      split
      · rename_i hmem
        cases hs : splitChar '|' expr with
        | nil => rfl
        | cons p0 pipes =>
          have hlt := splitChar_head_lt '|' expr hmem p0 pipes hs
          dsimp only
          rw [ih m p0 av (by omega) (by omega)]
      · split
        · rename_i hnmem hmem
          cases hs : splitChar '.' expr with
          | nil => rfl
          | cons d0 dots =>
            have hlt := splitChar_head_lt '.' expr hmem d0 dots hs
            dsimp only
            rw [ih m d0 av (by omega) (by omega)]
        · rfl

theorem itemsToString_append_sub (sec : CodeBuilder) :
    ∀ (pre post : List CItem),
      itemsToString (pre ++ Sum.inr sec :: post) =
        itemsToString pre ++ cbToString sec ++ itemsToString post := by
  intro pre post
  induction pre with
  | nil =>
    simp only [List.nil_append, itemsToString]
    rfl
  | cons it pre' ih =>
    cases it with
    | inl s =>
      simp only [List.cons_append, itemsToString, List.append_eq, ih,
        String.append_assoc]
    | inr cbi =>
      simp only [List.cons_append, itemsToString, List.append_eq, ih,
        String.append_assoc]

/-- C1: whenever the compile pass of `Template.__init__` runs to completion
(tokens pass tag validation: matched nesting, valid identifiers), the
builder's `indent_level` ends at `-4`, because line 53 reads `code.indent` —
an attribute access, not a call — while `code.dedent()` at the end is a
call; hence `get_globals` fails its `assert self.indent_level == 0` and
construction raises `AssertionError`. No input ever yields a usable
`Template`, so `render` is unreachable on every instance. -/
theorem c1_construction_always_asserts (text : String)
    (contexts : List (List (String × PyVal))) :
    (∀ st, compilePass text = Except.ok st →
      st.code.indent_level = -4 ∧
      templateInit text contexts = Except.error (Abort.pyErr PyExc.assertionError)) ∧
    (∀ t, templateInit text contexts ≠ Except.ok t) := by
  have hmain : ∀ st, compilePass text = Except.ok st →
      st.code.indent_level = -4 ∧
      templateInit text contexts = Except.error (Abort.pyErr PyExc.assertionError) := by
    intro st hst
    have hind := compilePass_ok_indent text st hst
    refine ⟨hind, ?_⟩
    simp only [templateInit]
    rw [hst]
    simp only [get_globals, hind]
    norm_num
  refine ⟨hmain, ?_⟩
  intro t ht
  cases hc : compilePass text with
  | error a =>
    simp only [templateInit, hc] at ht
    cases ht
  | ok st =>
    have := (hmain st hc).2
    rw [this] at ht
    cases ht

/-- Witness for C1 at the empty template: its compile pass succeeds, and
construction nevertheless ends in `AssertionError`. -/
theorem c1_construction_always_asserts_witness :
    compilePass "" = Except.ok (stOf (compilePass "")) ∧
    (stOf (compilePass "")).code.indent_level = -4 ∧
    templateInit "" [] = Except.error (Abort.pyErr PyExc.assertionError) :=
  ⟨rfl, (c1_construction_always_asserts "" []).1 (stOf (compilePass "")) rfl⟩

/-- C2 (code bug): the spec's scenario
`Template("Hi {{name|upper}}!", {"upper": str.upper}).render({"name": "ned"})`
cannot return `"Hi NED!"` — construction itself raises `AssertionError`
(the `code.indent`-without-parentheses slip leaves `indent_level` at `-4`),
so `render` is never reached. -/
theorem c2_render_scenario_blocked_by_assert :
    templateInit "Hi \x7b\x7bname|upper\x7d\x7d!" [[("upper", strUpperVal)]]
      = Except.error (Abort.pyErr PyExc.assertionError) := rfl

/-- C3 (code bug): on an unmatched open (`{% if a %}` alone), an unmatched
close (bare `{% endif %}`), and a mismatched close
(`{% if a %}{% for x in y %}{% endif %}`), construction does detect the
nesting violation (messages `Unmatched tag`, `Unmatched end`,
`Mismatched end`), but the exception actually raised is `NameError` — the
intended `TemplateSyntaxError` (the spec's `NestingError`) is undefined —
rather than any nesting-error type. -/
theorem c3_nesting_detected_but_nameerror_raised :
    templateInit "\x7b% if a %\x7d" []
        = Except.error (Abort.synErr "Unmatched tag" "if" PyExc.nameError) ∧
    templateInit "\x7b% endif %\x7d" []
        = Except.error
            (Abort.synErr "Unmatched end" "\x7b% endif %\x7d" PyExc.nameError) ∧
    templateInit "\x7b% if a %\x7d\x7b% for x in y %\x7d\x7b% endif %\x7d" []
        = Except.error (Abort.synErr "Mismatched end" "if" PyExc.nameError) :=
  ⟨rfl, rfl, rfl⟩

/-- C4 (code bug): the invalid identifier `{{ 1bad }}` is detected by
`_variable` (message `Invalid name` with the offending identifier `1bad`),
but the exception actually raised at construction is `NameError` — the
`TemplateSyntaxError` that would have named the identifier is undefined —
so no `SyntaxError` naming `1bad` ever reaches the caller. -/
theorem c4_invalid_name_detected_but_nameerror_raised :
    templateInit "\x7b\x7b 1bad \x7d\x7d" []
      = Except.error (Abort.synErr "Invalid name" "1bad" PyExc.nameError) := rfl

/-- C5: on every compile-time error path of `Template.__init__` that goes
through `Template._syntax_error` (invalid name, bad `if`/`for` arity,
unknown tag, unmatched or mismatched end), the exception actually raised is
a `NameError`: `raise TemplateSyntaxError(...)` references a class defined
nowhere in the module or the builtins, so resolving the name fails before
the intended diagnostic exception is ever constructed. -/
theorem c5_syntax_errors_are_nameerrors (text : String)
    (contexts : List (List (String × PyVal))) (m t : String) (e : PyExc)
    (h : templateInit text contexts = Except.error (Abort.synErr m t e)) :
    e = PyExc.nameError := by
  simp only [templateInit] at h
  split at h
  · rename_i hc
    injection h with h'
    exact compilePass_err text _ hc m t e h'
  · split at h
    · rename_i hg
      simp only [get_globals] at hg
      split at hg
      · cases hg
      · injection hg with h2
        injection h with h'
        rw [← h2] at h'
        cases h'
    · cases h

/-- Witness for C5: the invalid identifier `1bad` drives construction onto
the `_syntax_error("Invalid name", ...)` path, and the exception class
raised there is `NameError`. -/
theorem c5_syntax_errors_are_nameerrors_witness :
    templateInit "\x7b\x7b 1bad \x7d\x7d" []
        = Except.error (Abort.synErr "Invalid name" "1bad" PyExc.nameError) ∧
      PyExc.nameError = PyExc.nameError :=
  ⟨rfl, c5_syntax_errors_are_nameerrors "\x7b\x7b 1bad \x7d\x7d" [] "Invalid name"
    "1bad" PyExc.nameError rfl⟩

/-- C6: `Template._do_dots` prefers attribute access at each step, falls back
to key/index access when the attribute is absent, auto-invokes a callable
step result and continues with the returned value, resolves the names left
to right, and fails with a `LookupError` (here a `KeyError`) when neither
access succeeds at some step. -/
theorem c6_do_dots_resolution :
    (∀ (v : PyVal) (d : String) (ds : List String) (r : PyVal),
       getattrOpt v d = some r → do_dots v (d :: ds) = do_dots (autoCall r) ds) ∧
    (∀ (v : PyVal) (d : String) (ds : List String) (r : PyVal),
       getattrOpt v d = none → getitemOpt v d = some r →
       do_dots v (d :: ds) = do_dots (autoCall r) ds) ∧
    (∀ (v : PyVal) (d : String) (ds : List String),
       getattrOpt v d = none → getitemOpt v d = none →
       do_dots v (d :: ds) = Except.error PyExc.keyError ∧
         isLookupError PyExc.keyError = true) ∧
    (∀ (attrs items : List (String × PyVal)) (r : PyVal),
       autoCall (PyVal.mk attrs items (some r)) = r) ∧
    (∀ (attrs items : List (String × PyVal)),
       autoCall (PyVal.mk attrs items none) = PyVal.mk attrs items none) ∧
    (∀ v : PyVal, do_dots v [] = Except.ok v) := by
  refine ⟨?_, ?_, ?_, ?_, ?_, ?_⟩
  · intro v d ds r h
    simp only [do_dots, h]
  · intro v d ds r ha hi
    simp only [do_dots, ha, hi]
  · intro v d ds ha hi
    refine ⟨?_, rfl⟩
    simp only [do_dots, ha, hi]
  · intro attrs items r; rfl
  · intro attrs items; rfl
  · intro v; rfl

/-- Witness for C6: an object with no attribute `x` but a key `x` resolves
the step via key access. -/
theorem c6_do_dots_resolution_witness :
    getattrOpt (PyVal.mk [] [("x", strUpperVal)] none) "x" = none ∧
    getitemOpt (PyVal.mk [] [("x", strUpperVal)] none) "x" = some strUpperVal ∧
    do_dots (PyVal.mk [] [("x", strUpperVal)] none) ["x"]
      = do_dots (autoCall strUpperVal) [] :=
  ⟨rfl, rfl,
    c6_do_dots_resolution.2.1 (PyVal.mk [] [("x", strUpperVal)] none) "x" [] strUpperVal
      rfl rfl⟩

/-- C7: `_expr_code` splits on pipes before anything else and applies the
filters left to right — compiling `value|filter_1|filter_2` wraps the
compiled value as `c_filter_2(c_filter_1(<value>))`, registering each filter
name as a context variable — and on `a.b|c` the pipe is split before the
dot-compilation of `a.b`, yielding `c_c(do_dots(c_a, 'b'))`. -/
theorem c7_filters_compose :
    (∀ (v f1 f2 : List Char) (av av1 av2 av3 : List String) (c : String),
       '|' ∉ v → '|' ∉ f1 → '|' ∉ f2 →
       expr_code v av = Except.ok (c, av1) →
       trackVar (String.mk f1) av1 = Except.ok av2 →
       trackVar (String.mk f2) av2 = Except.ok av3 →
       expr_code (v ++ ('|' :: (f1 ++ ('|' :: f2)))) av =
         Except.ok
           ("c_" ++ String.mk f2 ++ "(" ++ ("c_" ++ String.mk f1 ++ "(" ++ c ++ ")") ++ ")",
            av3)) ∧
    expr_code "a.b|c".toList [] =
      Except.ok ("c_c(do_dots(c_a, \x27b\x27))", ["a", "c"]) := by
  constructor
  · intro v f1 f2 av av1 av2 av3 c hv hf1 hf2 hev htv1 htv2
    have hmem : '|' ∈ v ++ ('|' :: (f1 ++ ('|' :: f2))) := by simp
    unfold expr_code at hev ⊢
    simp only [exprCodeF]
    rw [if_pos hmem]
    rw [splitChar_append '|' v (f1 ++ ('|' :: f2)) hv]
    rw [splitChar_append '|' f1 f2 hf1]
    rw [splitChar_not_mem '|' f2 hf2]
    dsimp only
    have hlen : v.length < (v ++ ('|' :: (f1 ++ ('|' :: f2)))).length := by
      simp [List.length_append]
    rw [exprCodeF_congr ((v ++ ('|' :: (f1 ++ ('|' :: f2)))).length) (v.length + 1) v av
          hlen (by omega),
        hev]
    dsimp only
    simp only [List.foldlM_cons, List.foldlM_nil]
    rw [htv1]
    simp only [except_ok_bind]
    rw [htv2]
    simp only [except_ok_bind, except_pure_eq]
  · rfl

/-- Witness for C7: `name|upper|reverse` compiles to
`c_reverse(c_upper(c_name))`, registering `name`, `upper`, `reverse`. -/
theorem c7_filters_compose_witness :
    expr_code "name|upper|reverse".toList [] =
      Except.ok ("c_reverse(c_upper(c_name))", ["name", "upper", "reverse"]) := by
  have h := c7_filters_compose.1 "name".toList "upper".toList "reverse".toList []
    ["name"] ["name", "upper"] ["name", "upper", "reverse"] "c_name"
    (by decide) (by decide) (by decide) rfl rfl rfl
  exact h

/-- C8 counterexample: compiling `{% for x in ys %}{% endfor %}` registers
the loop variable `x` in `loop_vars` but not in `all_vars`, so the claim
that a `for` tag registers its variable in both sets — and its consequence
`loop_vars ⊆ all_vars` — fails on this input. -/
theorem c8_loop_vars_not_subset_counterexample :
    "x" ∈ compiledLoopVars "\x7b% for x in ys %\x7d\x7b% endfor %\x7d" ∧
    "x" ∉ compiledAllVars "\x7b% for x in ys %\x7d\x7b% endfor %\x7d" ∧
    "ys" ∈ compiledAllVars "\x7b% for x in ys %\x7d\x7b% endfor %\x7d" := by
  decide

/-- C8 (amended): for every `{% for <var> in <expr> %}` tag processed during
compilation, the loop variable is validated and registered in the
loop-variable set only (`self._variable(words[1], self.loop_vars)`), while
`all_vars` is updated solely by compiling `<expr>`; consequently `loop_vars`
need not be a subset of `all_vars`. -/
theorem c8_for_registers_loop_var_only (st : CompileSt) (tok : String)
    (rest : List Char) (v seq : String) (st' : CompileSt)
    (h1 : tok.toList = '\x7b' :: '%' :: rest)
    (h2 : tagWords tok = ["for", v, "in", seq])
    (h3 : processToken st tok = Except.ok st') :
    v ∈ st'.loop_vars ∧
    st'.loop_vars = (if v ∈ st.loop_vars then st.loop_vars else st.loop_vars ++ [v]) ∧
    ∃ c, expr_code seq.toList st.all_vars = Except.ok (c, st'.all_vars) := by
  unfold processToken at h3
  rw [h1] at h3
  simp only [h2, if_true] at h3
  replace h3 := h3.symm
  split at h3
  · cases h3
  · rename_i lv htv
    split at h3
    · cases h3
    · rename_i code0 av0 hec
      injection h3 with h3'
      rw [h3']
      unfold trackVar at htv
      split at htv
      · injection htv with htv'
        refine ⟨?_, ?_, ?_⟩
        · rw [← htv', flush_loop_vars]
          split
          · assumption
          · simp
        · rw [← htv', flush_loop_vars]
        · refine ⟨code0, ?_⟩
          rw [flush_all_vars] at hec
          rw [hec]
      · cases htv

/-- Witness for C8 (amended): processing `{% for x in ys %}` from the empty
compile state registers `x` as a loop variable and leaves `all_vars` to the
compilation of `ys`. -/
theorem c8_for_registers_loop_var_only_witness :
    "\x7b% for x in ys %\x7d".toList
        = '\x7b' :: '%' :: " for x in ys %\x7d".toList ∧
    tagWords "\x7b% for x in ys %\x7d" = ["for", "x", "in", "ys"] ∧
    processToken emptyCompileSt "\x7b% for x in ys %\x7d"
        = Except.ok (stOf (processToken emptyCompileSt "\x7b% for x in ys %\x7d")) ∧
    ("x" ∈ (stOf (processToken emptyCompileSt "\x7b% for x in ys %\x7d")).loop_vars ∧
     (stOf (processToken emptyCompileSt "\x7b% for x in ys %\x7d")).loop_vars =
       (if "x" ∈ emptyCompileSt.loop_vars then emptyCompileSt.loop_vars
        else emptyCompileSt.loop_vars ++ ["x"]) ∧
     ∃ c, expr_code "ys".toList emptyCompileSt.all_vars =
       Except.ok
         (c, (stOf (processToken emptyCompileSt "\x7b% for x in ys %\x7d")).all_vars)) :=
  ⟨rfl, rfl, rfl,
    c8_for_registers_loop_var_only emptyCompileSt "\x7b% for x in ys %\x7d"
      " for x in ys %\x7d".toList "x" "ys"
      (stOf (processToken emptyCompileSt "\x7b% for x in ys %\x7d")) rfl rfl rfl⟩

/-- C9: a `CodeBuilder` section obtained via `add_section` is independently
mutable after insertion: `add_line` on the parent only appends, leaving
every existing item (sections included) unchanged at its position;
backfilling the section (`setSub`) leaves every other item of the parent
unchanged; and serializing the parent splices the section's rendered text at
the position where the section was inserted, in insertion order. -/
theorem c9_sections_independent :
    (∀ (cb : CodeBuilder) (ln : String) (i : Nat), i < cb.code.length →
       (cb.add_line ln).code.get? i = cb.code.get? i) ∧
    (∀ cb : CodeBuilder,
       (cb.add_section).1.code = cb.code ++ [Sum.inr (cb.add_section).2]) ∧
    (∀ (cb sec : CodeBuilder) (i j : Nat), j ≠ i →
       (setSub cb i sec).code.get? j = cb.code.get? j) ∧
    (∀ (ind : Int) (pre post : List CItem) (sec : CodeBuilder),
       cbToString (CodeBuilder.mk ind (pre ++ Sum.inr sec :: post)) =
         itemsToString pre ++ cbToString sec ++ itemsToString post) := by
  refine ⟨?_, ?_, ?_, ?_⟩
  · intro cb ln i hi
    simp only [CodeBuilder.add_line, CodeBuilder.code]
    exact List.get?_append hi
  · intro cb; rfl
  · intro cb sec i j hne
    simp only [setSub, CodeBuilder.code]
    exact List.get?_set_ne _ _ (fun he => hne he.symm)
  · intro ind pre post sec
    rw [show cbToString (CodeBuilder.mk ind (pre ++ Sum.inr sec :: post))
          = itemsToString (pre ++ Sum.inr sec :: post) from rfl]
    exact itemsToString_append_sub sec pre post

/-- Witness for C9: appending a line to a one-item builder leaves item 0
unchanged, and backfilling the section at index 1 leaves item 0 unchanged. -/
theorem c9_sections_independent_witness :
    ((CodeBuilder.mk 0 [Sum.inl "x"]).add_line "y").code.get? 0
        = (CodeBuilder.mk 0 [Sum.inl "x"]).code.get? 0 ∧
    (setSub (CodeBuilder.mk 0 [Sum.inl "x", Sum.inr (CodeBuilder.mk 0 [])]) 1
        (CodeBuilder.mk 0 [Sum.inl "z"])).code.get? 0
      = (CodeBuilder.mk 0 [Sum.inl "x", Sum.inr (CodeBuilder.mk 0 [])]).code.get? 0 :=
  ⟨c9_sections_independent.1 (CodeBuilder.mk 0 [Sum.inl "x"]) "y" 0 (by decide),
   c9_sections_independent.2.2.1
     (CodeBuilder.mk 0 [Sum.inl "x", Sum.inr (CodeBuilder.mk 0 [])])
     (CodeBuilder.mk 0 [Sum.inl "z"]) 1 0 (by decide)⟩

/-- C10: a control tag whose contents contain no words (such as `{% %}`)
makes the token loop evaluate `words[0]` on an empty list, raising
`IndexError` — not a template syntax or nesting error; in particular
construction on the template `{% %}` raises `IndexError`. -/
theorem c10_empty_tag_index_error :
    (∀ (st : CompileSt) (tok : String) (rest : List Char),
       tok.toList = '\x7b' :: '%' :: rest → tagWords tok = [] →
       processToken st tok = Except.error (Abort.pyErr PyExc.indexError)) ∧
    templateInit "\x7b% %\x7d" [] = Except.error (Abort.pyErr PyExc.indexError) := by
  constructor
  · intro st tok rest h1 h2
    unfold processToken
    rw [h1]
    simp only [h2]
  · rfl

/-- Witness for C10: the tag `{% %}` has no words, and processing it from
the empty compile state raises `IndexError`. -/
theorem c10_empty_tag_index_error_witness :
    "\x7b% %\x7d".toList = '\x7b' :: '%' :: " %\x7d".toList ∧
    tagWords "\x7b% %\x7d" = [] ∧
    processToken emptyCompileSt "\x7b% %\x7d"
      = Except.error (Abort.pyErr PyExc.indexError) :=
  ⟨rfl, rfl,
    c10_empty_tag_index_error.1 emptyCompileSt "\x7b% %\x7d" " %\x7d".toList rfl rfl⟩
